import Mathlib

/-!
Shallow embedding of the capital-tiered recommendation engine of the
Stock-AI-Agent repository (`src/api/index.py`, `generate_recommendations`
and its helpers `get_tier` and the in-function scoring/allocation code).

Numbers are modelled as exact rationals (`ℚ`).  Python's `round(x, n)`
rounds half to even, modelled exactly by `rhe`/`roundTo`; Python's
`int(x)` truncates toward zero, modelled by `pyInt`.  Live-quote I/O
(`fetch_all_quotes`), the AI commentary call and the `generated_at`
timestamp are external collaborators per the spec; the engine here takes
the quote snapshot as an explicit argument.
-/

namespace StockAgent

/-- Round half to even to the nearest integer (semantics of Python's
`round` for exact values). -/
def rhe (x : ℚ) : ℤ :=
  if x - ⌊x⌋ < 1/2 then ⌊x⌋
  else if 1/2 < x - ⌊x⌋ then ⌊x⌋ + 1
  else if ⌊x⌋ % 2 = 0 then ⌊x⌋ else ⌊x⌋ + 1

/-- Python `round(x, n)` from the source: round to `n` decimal places. -/
def roundTo (n : ℕ) (x : ℚ) : ℚ := (rhe (x * 10 ^ n) : ℚ) / 10 ^ n

/-- Python `int(x)`: truncation toward zero (`-⌊-x⌋` when `x < 0`). -/
def pyInt (x : ℚ) : ℤ := if 0 ≤ x then ⌊x⌋ else -⌊-x⌋

/-- Function `get_tier(capital)` from `src/api/index.py`:
returns `(tier, max_positions, max_risk)`. -/
def get_tier (capital : ℚ) : ℕ × ℕ × ℚ :=
  if capital ≤ 500 then (1, 1, 1/2)
  else if capital ≤ 2000 then (2, 3, 3/5)
  else if capital ≤ 5000 then (3, 7, 7/10)
  else (4, 15, 4/5)

/-- The `strat_mult` dict lookup with default 1.0
(`strat_mult.get(investment_strategy, 1.0)`). -/
def strat_mult (s : String) : ℚ :=
  if s = "conservative" then 7/10
  else if s = "balanced" then 1
  else if s = "growth" then 13/10
  else if s = "aggressive" then 3/2
  else 1

/-- The `risk_mult_map` dict lookup with default 1.0
(`risk_mult_map.get(risk_tolerance, 1.0)`). -/
def risk_mult_map (r : String) : ℚ :=
  if r = "very_low" then 1/2
  else if r = "low" then 7/10
  else if r = "moderate" then 1
  else if r = "high" then 13/10
  else if r = "very_high" then 3/2
  else 1

/-- Catalog value of `ASX_STOCKS`: `{'name': ..., 'sector': ...}`. -/
structure StockInfo where
  name : String
  sector : String
deriving DecidableEq

/-- A live quote as produced by `_parse_chart_meta` and consumed by
`generate_recommendations` via `.get` with defaults.  A missing `price`
key (or a falsy one, modelled by `some 0`) makes the candidate skipped. -/
structure Quote where
  price : Option ℚ
  previous_close : Option ℚ
  fifty_two_week_high : Option ℚ
  fifty_two_week_low : Option ℚ
  long_name : Option String
  volume : ℚ
deriving DecidableEq

/-- Source line `daily_change = (price - prev) / prev * 100 if prev else 0`. -/
def dailyChange (price prev : ℚ) : ℚ :=
  if prev = 0 then 0 else (price - prev) / prev * 100

/-- Source line `from_52w_high = (w52_high - price) / w52_high * 100 if w52_high else 0`. -/
def from52wHigh (price w52_high : ℚ) : ℚ :=
  if w52_high = 0 then 0 else (w52_high - price) / w52_high * 100

/-- Source line `base_return = max(2.0, min(5.0 + from_52w_high*0.3 + daily_change*0.5, 25.0))`. -/
def baseReturn (price prev w52_high : ℚ) : ℚ :=
  max 2 (min (5 + from52wHigh price w52_high * (3/10) + dailyChange price prev * (1/2)) 25)

/-- Source line `range_width = w52_high - w52_low if w52_high > w52_low else 1`. -/
def rangeWidth (w52_high w52_low : ℚ) : ℚ :=
  if w52_low < w52_high then w52_high - w52_low else 1

/-- Source line `position_in_range = (price - w52_low) / range_width if range_width else 0.5`. -/
def posInRange (price w52_high w52_low : ℚ) : ℚ :=
  if rangeWidth w52_high w52_low = 0 then 1/2
  else (price - w52_low) / rangeWidth w52_high w52_low

/-- Source line `confidence = 0.55 + (1 - position_in_range) * 0.35`. -/
def confidenceOf (price w52_high w52_low : ℚ) : ℚ :=
  11/20 + (1 - posInRange price w52_high w52_low) * (7/20)

/-- Source line `risk_score = min(0.2 + position_in_range*0.5 + abs(daily_change)*0.02, 0.95)`. -/
def riskScoreOf (price prev w52_high w52_low : ℚ) : ℚ :=
  min (1/5 + posInRange price w52_high w52_low * (1/2) + |dailyChange price prev| * (1/50)) (19/20)

/-- One entry of the `scored` list built inside `generate_recommendations`. -/
structure Scored where
  symbol : String
  name : String
  sector : String
  price : ℚ
  predicted_return : ℚ
  confidence : ℚ
  risk_score : ℚ
  score : ℚ
  daily_change : ℚ
  volume : ℚ
  fifty_two_week_high : ℚ
  fifty_two_week_low : ℚ
deriving DecidableEq

/-- The body of the `for sym, info in ASX_STOCKS.items()` loop of
`generate_recommendations`: skip when the quote has no (truthy) price,
derive the synthetic signals, drop the candidate when
`risk_score > max_risk`, otherwise append a scored dict. -/
def scoreCandidate (sm rm max_risk : ℚ) (sym name0 sector : String) (q : Quote) :
    Option Scored :=
  match q.price with
  | none => none
  | some price =>
    if price = 0 then none else
    let prev := q.previous_close.getD price
    let w52_high := q.fifty_two_week_high.getD price
    let w52_low := q.fifty_two_week_low.getD price
    if max_risk < riskScoreOf price prev w52_high w52_low then none
    else
      let adj_return := roundTo 1 (baseReturn price prev w52_high * sm * rm)
      some {
        symbol := sym
        name := match q.long_name with
                | some s => if s = "" then name0 else s
                | none => name0
        sector := sector
        price := roundTo 2 price
        predicted_return := adj_return
        confidence := roundTo 2 (confidenceOf price w52_high w52_low)
        risk_score := roundTo 2 (riskScoreOf price prev w52_high w52_low)
        score := adj_return * confidenceOf price w52_high w52_low
        daily_change := roundTo 2 (dailyChange price prev)
        volume := q.volume
        fifty_two_week_high := roundTo 2 w52_high
        fifty_two_week_low := roundTo 2 w52_low }

/-- The whole scoring loop over the catalog with a quote snapshot. -/
def scoredList (catalog : List (String × StockInfo)) (quotes : String → Option Quote)
    (sm rm max_risk : ℚ) : List Scored :=
  catalog.filterMap fun si =>
    match quotes si.1 with
    | none => none
    | some q => scoreCandidate sm rm max_risk si.1 si.2.name si.2.sector q

/-- The comparison used by `scored.sort(key=lambda x: x['score'], reverse=True)`:
descending by `score`, ties keep list order (Python's sort is stable). -/
def scoreLe (a b : Scored) : Bool := decide (b.score ≤ a.score)

/-- Source line `scored.sort(key=lambda x: x['score'], reverse=True)` as a stable sort. -/
def sortByScore (l : List Scored) : List Scored := l.mergeSort scoreLe

/-- Source line `total_score = sum(p['score'] for p in picks) or 1`. -/
def totalScore (picks : List Scored) : ℚ :=
  if (picks.map (·.score)).sum = 0 then 1 else (picks.map (·.score)).sum

/-- One element of the `recs` list (`recs.append({...})` in the source).
The `reasoning` and `data_source` strings are pure formatting over the
fields below and are omitted. -/
structure Alloc where
  symbol : String
  company_name : String
  current_price : ℚ
  target_price : ℚ
  predicted_return : ℚ
  confidence_score : ℚ
  recommended_allocation : ℚ
  recommended_shares : ℤ
  daily_change_pct : ℚ
  volume : ℚ
  fifty_two_week_high : ℚ
  fifty_two_week_low : ℚ
deriving DecidableEq

/-- The dict appended to `recs` for an accepted pick `p` with the final
`shares` and `cost` (`target = round(p['price'] * (1 + p['predicted_return']/100), 2)`). -/
def mkAlloc (p : Scored) (shares : ℤ) (cost : ℚ) : Alloc :=
  { symbol := p.symbol
    company_name := p.name
    current_price := p.price
    target_price := roundTo 2 (p.price * (1 + p.predicted_return / 100))
    predicted_return := p.predicted_return
    confidence_score := p.confidence
    recommended_allocation := cost
    recommended_shares := shares
    daily_change_pct := p.daily_change
    volume := p.volume
    fifty_two_week_high := p.fifty_two_week_high
    fifty_two_week_low := p.fifty_two_week_low }

/-- One iteration's `(shares, cost)` computation for pick `p` given
`total_invested`: `alloc = capital * p['score'] / total_score`,
`shares = max(1, int(alloc / p['price']))`, `cost = round(shares * p['price'], 2)`,
then the overflow guard recomputing shares from the remaining capital. -/
def allocStep (capital total_score total_invested : ℚ) (p : Scored) : ℤ × ℚ :=
  let shares0 : ℤ := max 1 (pyInt (capital * p.score / total_score / p.price))
  let cost0 := roundTo 2 ((shares0 : ℚ) * p.price)
  if capital < total_invested + cost0 then
    let shares1 : ℤ := max 1 (pyInt ((capital - total_invested) / p.price))
    (shares1, roundTo 2 ((shares1 : ℚ) * p.price))
  else (shares0, cost0)

/-- The `for p in picks:` allocation loop of `generate_recommendations`,
threading `total_invested`.  A pick whose final cost is non-positive or
would overspend is skipped (`continue`); otherwise its dict is appended.
Returns the accepted `recs` together with the final `total_invested`. -/
def allocLoop (capital total_score : ℚ) : List Scored → ℚ → List Alloc × ℚ
  | [], total_invested => ([], total_invested)
  | p :: ps, total_invested =>
    let sc := allocStep capital total_score total_invested p
    if sc.2 ≤ 0 ∨ capital < total_invested + sc.2 then
      allocLoop capital total_score ps total_invested
    else
      let rest := allocLoop capital total_score ps (total_invested + sc.2)
      (mkAlloc p sc.1 sc.2 :: rest.1, rest.2)

/-- The request body, with `.get` defaults `1000`, `'moderate'`,
`'balanced'` applied in `generate_recommendations`. -/
structure Body where
  total_capital : Option ℚ
  risk_tolerance : Option String
  investment_strategy : Option String
deriving DecidableEq

/-- The success payload of `generate_recommendations`.  The `summary`,
`ai_portfolio_analysis`, `data_source`, `ai_enabled` and `generated_at`
fields are presentation strings or external-collaborator output (AI call,
wall clock) and are omitted from the embedding. -/
structure RecommendationSet where
  total_investment : ℚ
  expected_return : ℚ
  risk_level : String
  recommendations : List Alloc
deriving DecidableEq

/-- A `(payload, http_status)` return value of `generate_recommendations`. -/
inductive Response where
  | err : String → ℕ → Response
  | ok : RecommendationSet → ℕ → Response
deriving DecidableEq

/-- Source line `picks = scored[:max_pos]` after the scoring loop and the stable
descending sort, for a request that passed validation. -/
def pickList (catalog : List (String × StockInfo)) (quotes : String → Option Quote)
    (capital : ℚ) (rt st : String) : List Scored :=
  (sortByScore (scoredList catalog quotes (strat_mult st) (risk_mult_map rt)
      (get_tier capital).2.2)).take (get_tier capital).2.1

/-- The success payload of `generate_recommendations` (the dict returned
with status 200), as a function of the validated capital and the
defaulted `risk_tolerance` / `investment_strategy` strings. -/
def buildResult (catalog : List (String × StockInfo)) (quotes : String → Option Quote)
    (capital : ℚ) (rt st : String) : RecommendationSet :=
  let picks := pickList catalog quotes capital rt st
  let res := allocLoop capital (totalScore picks) picks 0
  let avg_return :=
    if res.1.isEmpty then 0
    else roundTo 1 ((res.1.map (·.predicted_return)).sum / (res.1.length : ℚ))
  { total_investment := roundTo 2 res.2
    expected_return := avg_return
    risk_level := rt
    recommendations := res.1 }

/-- Function `generate_recommendations(body)` from `src/api/index.py`, with the
stock catalog (the global `ASX_STOCKS`) and the live-quote snapshot
(the result of `fetch_all_quotes()`) as explicit arguments. -/
def generate_recommendations (catalog : List (String × StockInfo)) (body : Body)
    (quotes : String → Option Quote) : Response :=
  let capital := body.total_capital.getD 1000
  if capital < 50 ∨ 10000 < capital then
    .err "Capital must be between $50 and $10,000" 400
  else
    .ok (buildResult catalog quotes capital (body.risk_tolerance.getD "moderate")
          (body.investment_strategy.getD "balanced")) 200

/-- The global `ASX_STOCKS` dict of `src/api/index.py`, in insertion order. -/
def ASX_STOCKS : List (String × StockInfo) :=
  [("CBA.AX", ⟨"Commonwealth Bank", "Financials"⟩),
   ("BHP.AX", ⟨"BHP Group", "Materials"⟩),
   ("CSL.AX", ⟨"CSL Limited", "Healthcare"⟩),
   ("NAB.AX", ⟨"National Australia Bank", "Financials"⟩),
   ("WBC.AX", ⟨"Westpac Banking", "Financials"⟩),
   ("ANZ.AX", ⟨"ANZ Group", "Financials"⟩),
   ("FMG.AX", ⟨"Fortescue Metals", "Materials"⟩),
   ("WES.AX", ⟨"Wesfarmers", "Consumer"⟩),
   ("TLS.AX", ⟨"Telstra Group", "Telecom"⟩),
   ("RIO.AX", ⟨"Rio Tinto", "Materials"⟩),
   ("MQG.AX", ⟨"Macquarie Group", "Financials"⟩),
   ("WOW.AX", ⟨"Woolworths", "Consumer"⟩),
   ("ALL.AX", ⟨"Aristocrat Leisure", "Technology"⟩),
   ("STO.AX", ⟨"Santos", "Energy"⟩),
   ("WDS.AX", ⟨"Woodside Energy", "Energy"⟩),
   ("REA.AX", ⟨"REA Group", "Technology"⟩),
   ("TCL.AX", ⟨"Transurban Group", "Infrastructure"⟩),
   ("GMG.AX", ⟨"Goodman Group", "Real Estate"⟩),
   ("COL.AX", ⟨"Coles Group", "Consumer"⟩),
   ("QBE.AX", ⟨"QBE Insurance", "Financials"⟩),
   ("SHL.AX", ⟨"Sonic Healthcare", "Healthcare"⟩),
   ("AMC.AX", ⟨"Amcor", "Materials"⟩),
   ("ORG.AX", ⟨"Origin Energy", "Energy"⟩),
   ("MIN.AX", ⟨"Mineral Resources", "Materials"⟩),
   ("JHX.AX", ⟨"James Hardie", "Materials"⟩),
   ("SEK.AX", ⟨"Seek Limited", "Technology"⟩),
   ("CPU.AX", ⟨"Computershare", "Technology"⟩),
   ("IAG.AX", ⟨"Insurance Australia", "Financials"⟩),
   ("ASX.AX", ⟨"ASX Limited", "Financials"⟩),
   ("NCM.AX", ⟨"Newcrest Mining", "Materials"⟩),
   ("AGL.AX", ⟨"AGL Energy", "Energy"⟩),
   ("S32.AX", ⟨"South32", "Materials"⟩),
   ("XRO.AX", ⟨"Xero Limited", "Technology"⟩),
   ("WTC.AX", ⟨"WiseTech Global", "Technology"⟩),
   ("APX.AX", ⟨"Appen Limited", "Technology"⟩),
   ("ZIP.AX", ⟨"Zip Co", "Financials"⟩),
   ("LYC.AX", ⟨"Lynas Rare Earths", "Materials"⟩),
   ("PLS.AX", ⟨"Pilbara Minerals", "Materials"⟩),
   ("AZJ.AX", ⟨"Aurizon Holdings", "Infrastructure"⟩),
   ("TWE.AX", ⟨"Treasury Wine Estates", "Consumer"⟩),
   ("IEL.AX", ⟨"IDP Education", "Education"⟩),
   ("RMD.AX", ⟨"ResMed", "Healthcare"⟩),
   ("MPL.AX", ⟨"Medibank Private", "Healthcare"⟩),
   ("ORI.AX", ⟨"Orica Limited", "Materials"⟩),
   ("BXB.AX", ⟨"Brambles", "Logistics"⟩),
   ("SCG.AX", ⟨"Scentre Group", "Real Estate"⟩),
   ("DXS.AX", ⟨"Dexus", "Real Estate"⟩),
   ("SGP.AX", ⟨"Stockland", "Real Estate"⟩),
   ("EVN.AX", ⟨"Evolution Mining", "Materials"⟩),
   ("NST.AX", ⟨"Northern Star", "Materials"⟩)]

/-! ### Concrete snapshots used to exercise the engine -/

/-- A one-stock catalog (the first `ASX_STOCKS` entry). -/
def catalog1 : List (String × StockInfo) :=
  [("CBA.AX", ⟨"Commonwealth Bank", "Financials"⟩)]

/-- A benign quote: price 97, flat day, 52-week range 94–100. -/
def qGood : Quote := ⟨some 97, some 97, some 100, some 94, none, 0⟩

/-- Snapshot mapping `CBA.AX` to `qGood`. -/
def quotes1 : String → Option Quote := fun s => if s = "CBA.AX" then some qGood else none

/-- The scored dict the engine derives from `qGood` with neutral
multipliers: base return 5.9, confidence 0.725 (stored rounded to 0.72),
risk 0.45, composite score 5.9 × 0.725 = 4.2775. -/
def s97 : Scored :=
  ⟨"CBA.AX", "Commonwealth Bank", "Financials", 97, 59/10, 18/25, 9/20, 1711/400, 0, 0, 100, 94⟩

/-- A quote sitting at the top of its 52-week range: position 1.0, so
risk score 0.7 — above every tier ceiling up to tier 3. -/
def qRisky : Quote := ⟨some 100, some 100, some 100, some 0, none, 0⟩

/-- Snapshot mapping `CBA.AX` to `qRisky`. -/
def quotesRisky : String → Option Quote :=
  fun s => if s = "CBA.AX" then some qRisky else none

/-- The spec's budget-rejection scenario quote: price 1200 (beyond a
capital of 1000), low risk (position 0 in range 1200–2400). -/
def qExp : Quote := ⟨some 1200, some 1200, some 2400, some 1200, none, 0⟩

/-- Snapshot mapping `CBA.AX` to `qExp`. -/
def quotesExp : String → Option Quote := fun s => if s = "CBA.AX" then some qExp else none

/-- The scored dict derived from `qExp` with neutral multipliers:
base return 20, confidence 0.9, risk 0.2, score 18. -/
def sExp : Scored :=
  ⟨"CBA.AX", "Commonwealth Bank", "Financials", 1200, 20, 9/10, 1/5, 18, 0, 0, 2400, 1200⟩

/-! ### Rounding lemmas -/

theorem rhe_intCast (z : ℤ) : rhe (z : ℚ) = z := by
  simp [rhe]

theorem roundTo_two_eq_self (x : ℚ) (z : ℤ) (h : x * 100 = (z : ℚ)) :
    roundTo 2 x = x := by
  have h10 : ((10 : ℚ) ^ 2) = 100 := by norm_num
  have hx : x = (z : ℚ) / 100 := by
    field_simp
    linarith
  rw [roundTo, h10, h, rhe_intCast, hx]

theorem roundTo_two_mul_cast (x : ℚ) : ∃ z : ℤ, roundTo 2 x * 100 = (z : ℚ) := by
  refine ⟨rhe (x * 10 ^ 2), ?_⟩
  rw [roundTo]
  norm_num

/-! ### Allocation-loop lemmas -/

theorem allocStep_spec (capital total_score total_invested : ℚ) (p : Scored) :
    ∃ shares : ℤ, 1 ≤ shares ∧
      allocStep capital total_score total_invested p
        = (shares, roundTo 2 ((shares : ℚ) * p.price)) := by
  rw [allocStep]
  split
  · exact ⟨_, le_max_left _ _, rfl⟩
  · exact ⟨_, le_max_left _ _, rfl⟩

/-- Loop invariant: starting from any `total_invested ≤ capital`, the
final `total_invested` never decreases and never exceeds `capital`. -/
theorem allocLoop_invested_bounds (capital total_score : ℚ) :
    ∀ (ps : List Scored) (ti : ℚ), ti ≤ capital →
      ti ≤ (allocLoop capital total_score ps ti).2 ∧
        (allocLoop capital total_score ps ti).2 ≤ capital
  | [], ti, h => ⟨le_refl _, h⟩
  | p :: ps, ti, h => by
    rw [allocLoop]
    split
    · exact allocLoop_invested_bounds capital total_score ps ti h
    · next hrej =>
      push_neg at hrej
      obtain ⟨hpos, hle⟩ := hrej
      have ih := allocLoop_invested_bounds capital total_score ps
        (ti + (allocStep capital total_score ti p).2) hle
      refine ⟨le_trans ?_ ih.1, ih.2⟩
      linarith

/-- The final `total_invested` is the initial one plus the sum of the
accepted costs (`recommended_allocation`). -/
theorem allocLoop_invested_eq_sum (capital total_score : ℚ) :
    ∀ (ps : List Scored) (ti : ℚ),
      (allocLoop capital total_score ps ti).2
        = ti + (((allocLoop capital total_score ps ti).1.map
            (·.recommended_allocation)).sum)
  | [], ti => by simp [allocLoop]
  | p :: ps, ti => by
    rw [allocLoop]
    split
    · exact allocLoop_invested_eq_sum capital total_score ps ti
    · have ih := allocLoop_invested_eq_sum capital total_score ps
        (ti + (allocStep capital total_score ti p).2)
      simp only [List.map_cons, List.sum_cons, mkAlloc]
      rw [ih]
      ring

theorem allocLoop_length_le (capital total_score : ℚ) :
    ∀ (ps : List Scored) (ti : ℚ),
      (allocLoop capital total_score ps ti).1.length ≤ ps.length
  | [], _ => by simp [allocLoop]
  | p :: ps, ti => by
    rw [allocLoop]
    split
    · exact le_trans (allocLoop_length_le capital total_score ps ti)
        (Nat.le_succ _)
    · simpa using allocLoop_length_le capital total_score ps _

/-- Every accepted entry comes from some pick `p`, with at least one
share and with cost `round(shares * p['price'], 2)`. -/
theorem allocLoop_mem_spec (capital total_score : ℚ) :
    ∀ (ps : List Scored) (ti : ℚ) (a : Alloc),
      a ∈ (allocLoop capital total_score ps ti).1 →
      ∃ p ∈ ps, ∃ shares : ℤ, 1 ≤ shares ∧
        a = mkAlloc p shares (roundTo 2 ((shares : ℚ) * p.price))
  | [], _, a, ha => by simp [allocLoop] at ha
  | p :: ps, ti, a, ha => by
    rw [allocLoop] at ha
    split at ha
    · obtain ⟨p', hp', hsp⟩ := allocLoop_mem_spec capital total_score ps ti a ha
      exact ⟨p', List.mem_cons_of_mem _ hp', hsp⟩
    · simp only [List.mem_cons] at ha
      rcases ha with ha | ha
      · obtain ⟨shares, hs1, hstep⟩ := allocStep_spec capital total_score ti p
        refine ⟨p, List.mem_cons_self _ _, shares, hs1, ?_⟩
        rw [ha, hstep]
      · obtain ⟨p', hp', hsp⟩ := allocLoop_mem_spec capital total_score ps _ a ha
        exact ⟨p', List.mem_cons_of_mem _ hp', hsp⟩

/-! ### Sorting lemmas -/

theorem scoreLe_trans (a b c : Scored) (hab : scoreLe a b) (hbc : scoreLe b c) :
    scoreLe a c := by
  simp only [scoreLe, decide_eq_true_eq] at *
  exact le_trans hbc hab

theorem scoreLe_total (a b : Scored) : scoreLe a b || scoreLe b a := by
  simp only [scoreLe, Bool.or_eq_true, decide_eq_true_eq]
  exact le_total _ _

theorem sortByScore_perm (l : List Scored) : (sortByScore l).Perm l :=
  List.mergeSort_perm l scoreLe

theorem sortByScore_sorted (l : List Scored) :
    (sortByScore l).Pairwise (fun a b => b.score ≤ a.score) := by
  have h := List.sorted_mergeSort scoreLe_trans scoreLe_total l
  exact h.imp (fun hab => by simpa [scoreLe] using hab)

theorem sortByScore_stable {a b : Scored} {l : List Scored} (h : a.score = b.score)
    (hsub : [a, b].Sublist l) : [a, b].Sublist (sortByScore l) :=
  List.pair_sublist_mergeSort scoreLe_trans scoreLe_total
    (by simp [scoreLe, h.ge]) hsub

/-! ### Scoring lemmas -/

theorem scoreCandidate_eq_some {sm rm mr : ℚ} {sym n0 sec : String} {q : Quote}
    {s : Scored} (h : scoreCandidate sm rm mr sym n0 sec q = some s) :
    ∃ price : ℚ, q.price = some price ∧ ¬price = 0 ∧
      riskScoreOf price (q.previous_close.getD price) (q.fifty_two_week_high.getD price)
        (q.fifty_two_week_low.getD price) ≤ mr ∧
      s.symbol = sym ∧
      s.price = roundTo 2 price ∧
      s.predicted_return = roundTo 1 (baseReturn price (q.previous_close.getD price)
        (q.fifty_two_week_high.getD price) * sm * rm) ∧
      s.confidence = roundTo 2 (confidenceOf price (q.fifty_two_week_high.getD price)
        (q.fifty_two_week_low.getD price)) ∧
      s.score = s.predicted_return * confidenceOf price (q.fifty_two_week_high.getD price)
        (q.fifty_two_week_low.getD price) := by
  rw [scoreCandidate] at h
  cases hq : q.price with
  | none => rw [hq] at h; exact absurd h (by simp)
  | some price =>
    rw [hq] at h
    simp only at h
    split at h
    · exact absurd h (by simp)
    · split at h
      · exact absurd h (by simp)
      · next hzero hrisk =>
        injection h with h
        refine ⟨price, rfl, hzero, le_of_not_lt hrisk, ?_, ?_, ?_, ?_, ?_⟩ <;>
          rw [← h]

theorem mem_scoredList {catalog : List (String × StockInfo)}
    {quotes : String → Option Quote} {sm rm mr : ℚ} {s : Scored} :
    s ∈ scoredList catalog quotes sm rm mr ↔
      ∃ si ∈ catalog, ∃ q, quotes si.1 = some q ∧
        scoreCandidate sm rm mr si.1 si.2.name si.2.sector q = some s := by
  simp only [scoredList, List.mem_filterMap]
  constructor
  · rintro ⟨si, hsi, hf⟩
    cases hq : quotes si.1 with
    | none => rw [hq] at hf; simp at hf
    | some q =>
      rw [hq] at hf
      exact ⟨si, hsi, q, hq, hf⟩
  · rintro ⟨si, hsi, q, hq, hsc⟩
    refine ⟨si, hsi, ?_⟩
    rw [hq]
    exact hsc

theorem eq_of_mem_nodup_keys {l : List (String × StockInfo)}
    (h : (l.map Prod.fst).Nodup) {a : String} {b c : StockInfo}
    (hb : (a, b) ∈ l) (hc : (a, c) ∈ l) : b = c := by
  induction l with
  | nil => simp at hb
  | cons hd tl ih =>
    simp only [List.map_cons, List.nodup_cons] at h
    simp only [List.mem_cons] at hb hc
    rcases hb with hb | hb <;> rcases hc with hc | hc
    · rw [← hb] at hc
      exact (Prod.mk.injEq _ _ _ _ ▸ hc.symm).2
    · exact absurd (List.mem_map.mpr ⟨(a, c), hc, rfl⟩)
        (by rw [← hb] at h; exact h.1)
    · exact absurd (List.mem_map.mpr ⟨(a, b), hb, rfl⟩)
        (by rw [← hc] at h; exact h.1)
    · exact ih h.2 hb hc

/-! ### Shape of `generate_recommendations` results -/

theorem buildResult_recommendations (catalog : List (String × StockInfo))
    (quotes : String → Option Quote) (capital : ℚ) (rt st : String) :
    (buildResult catalog quotes capital rt st).recommendations
      = (allocLoop capital (totalScore (pickList catalog quotes capital rt st))
          (pickList catalog quotes capital rt st) 0).1 := rfl

theorem buildResult_total_investment (catalog : List (String × StockInfo))
    (quotes : String → Option Quote) (capital : ℚ) (rt st : String) :
    (buildResult catalog quotes capital rt st).total_investment
      = roundTo 2 (allocLoop capital (totalScore (pickList catalog quotes capital rt st))
          (pickList catalog quotes capital rt st) 0).2 := rfl

theorem generate_eq_ok {catalog : List (String × StockInfo)} {body : Body}
    {quotes : String → Option Quote} {rset : RecommendationSet} {st : ℕ}
    (h : generate_recommendations catalog body quotes = .ok rset st) :
    50 ≤ body.total_capital.getD 1000 ∧ body.total_capital.getD 1000 ≤ 10000 ∧
      st = 200 ∧
      rset = buildResult catalog quotes (body.total_capital.getD 1000)
        (body.risk_tolerance.getD "moderate") (body.investment_strategy.getD "balanced") := by
  rw [generate_recommendations] at h
  split at h
  · exact absurd h (by simp)
  · next hv =>
    push_neg at hv
    injection h with h1 h2
    exact ⟨hv.1, hv.2, h2.symm, h1.symm⟩

/-! ### Evaluating the engine on the concrete snapshots -/

theorem scoreCand_qGood :
    scoreCandidate 1 1 (3/5) "CBA.AX" "Commonwealth Bank" "Financials" qGood
      = some s97 := by
  rw [scoreCandidate]
  norm_num [qGood, riskScoreOf, posInRange, rangeWidth, dailyChange, confidenceOf,
    baseReturn, from52wHigh, s97, roundTo, rhe]

theorem scoredList_qGood : scoredList catalog1 quotes1 1 1 (3/5) = [s97] := by
  rw [scoredList, catalog1]
  simp only [List.filterMap]
  rw [quotes1]
  norm_num
  rw [scoreCand_qGood]

theorem sortByScore_s97 : sortByScore [s97] = [s97] :=
  List.perm_singleton.mp (sortByScore_perm [s97])

theorem pickList_qGood : pickList catalog1 quotes1 1000 "moderate" "balanced" = [s97] := by
  rw [pickList]
  have ht : get_tier 1000 = (2, 3, 3/5) := by
    rw [get_tier, if_neg (by norm_num), if_pos (by norm_num)]
  rw [ht]
  have hs : strat_mult "balanced" = 1 := by simp [strat_mult]
  have hr : risk_mult_map "moderate" = 1 := by simp [risk_mult_map]
  rw [hs, hr, scoredList_qGood, sortByScore_s97]
  rfl

theorem allocLoop_qGood : allocLoop 1000 (totalScore [s97]) [s97] 0
    = ([mkAlloc s97 10 970], 970) := by
  have hts : totalScore [s97] = 1711/400 := by
    rw [totalScore]
    norm_num [s97]
  rw [hts, allocLoop, allocStep]
  norm_num [s97, pyInt, roundTo, rhe, allocLoop]

theorem buildResult_qGood : buildResult catalog1 quotes1 1000 "moderate" "balanced"
    = ⟨970, 59/10, "moderate", [mkAlloc s97 10 970]⟩ := by
  rw [buildResult, pickList_qGood, allocLoop_qGood]
  norm_num [mkAlloc, s97, roundTo, rhe]

theorem generate_qGood :
    generate_recommendations catalog1 ⟨some 1000, none, none⟩ quotes1
      = .ok ⟨970, 59/10, "moderate", [mkAlloc s97 10 970]⟩ 200 := by
  rw [generate_recommendations, if_neg (by norm_num [Option.getD])]
  simp only [Option.getD]
  rw [buildResult_qGood]

theorem scoreCand_qExp :
    scoreCandidate 1 1 (3/5) "CBA.AX" "Commonwealth Bank" "Financials" qExp
      = some sExp := by
  rw [scoreCandidate]
  norm_num [qExp, riskScoreOf, posInRange, rangeWidth, dailyChange, confidenceOf,
    baseReturn, from52wHigh, sExp, roundTo, rhe]

theorem scoredList_qExp : scoredList catalog1 quotesExp 1 1 (3/5) = [sExp] := by
  rw [scoredList, catalog1]
  simp only [List.filterMap]
  rw [quotesExp]
  norm_num
  rw [scoreCand_qExp]

theorem pickList_qExp : pickList catalog1 quotesExp 1000 "moderate" "balanced"
    = [sExp] := by
  rw [pickList]
  have ht : get_tier 1000 = (2, 3, 3/5) := by
    rw [get_tier, if_neg (by norm_num), if_pos (by norm_num)]
  rw [ht]
  have hs : strat_mult "balanced" = 1 := by simp [strat_mult]
  have hr : risk_mult_map "moderate" = 1 := by simp [risk_mult_map]
  rw [hs, hr, scoredList_qExp,
    List.perm_singleton.mp (sortByScore_perm [sExp])]
  rfl

theorem allocLoop_qExp : allocLoop 1000 (totalScore [sExp]) [sExp] 0 = ([], 0) := by
  have hts : totalScore [sExp] = 18 := by
    rw [totalScore]
    norm_num [sExp]
  rw [hts, allocLoop, allocStep]
  norm_num [sExp, pyInt, roundTo, rhe, allocLoop]

theorem generate_qExp :
    generate_recommendations catalog1 ⟨some 1000, none, none⟩ quotesExp
      = .ok ⟨0, 0, "moderate", []⟩ 200 := by
  rw [generate_recommendations, if_neg (by norm_num [Option.getD])]
  simp only [Option.getD]
  rw [buildResult, pickList_qExp, allocLoop_qExp]
  norm_num [roundTo, rhe]

/-! ### Claim theorems -/

/-- C1: for every valid request and any quote snapshot, the sum of
`recommended_allocation` over the returned recommendations is at most
`total_capital`; and from any loop state `total_invested ≤ capital` the
allocation loop keeps `total_invested` non-decreasing and never lets it
exceed `capital`. -/
theorem sum_allocations_le_capital :
    (∀ (catalog : List (String × StockInfo)) (body : Body)
        (quotes : String → Option Quote) (rset : RecommendationSet) (st : ℕ),
      generate_recommendations catalog body quotes = .ok rset st →
        ((rset.recommendations.map (·.recommended_allocation)).sum
          ≤ body.total_capital.getD 1000)) ∧
    (∀ (capital total_score : ℚ) (ps : List Scored) (ti : ℚ), ti ≤ capital →
      ti ≤ (allocLoop capital total_score ps ti).2 ∧
        (allocLoop capital total_score ps ti).2 ≤ capital) := by
  constructor
  · intro catalog body quotes rset st h
    obtain ⟨h50, _, _, hrs⟩ := generate_eq_ok h
    have h0 : (0 : ℚ) ≤ body.total_capital.getD 1000 := by linarith
    subst hrs
    rw [buildResult_recommendations]
    have hsum := allocLoop_invested_eq_sum (body.total_capital.getD 1000)
      (totalScore (pickList catalog quotes (body.total_capital.getD 1000)
        (body.risk_tolerance.getD "moderate") (body.investment_strategy.getD "balanced")))
      (pickList catalog quotes (body.total_capital.getD 1000)
        (body.risk_tolerance.getD "moderate") (body.investment_strategy.getD "balanced")) 0
    have hb := allocLoop_invested_bounds (body.total_capital.getD 1000)
      (totalScore (pickList catalog quotes (body.total_capital.getD 1000)
        (body.risk_tolerance.getD "moderate") (body.investment_strategy.getD "balanced")))
      (pickList catalog quotes (body.total_capital.getD 1000)
        (body.risk_tolerance.getD "moderate") (body.investment_strategy.getD "balanced")) 0 h0
    rw [hsum] at hb
    linarith [hb.2]
  · exact allocLoop_invested_bounds

/-- Witness for C1 at a concrete request (capital 100, empty snapshot)
and a concrete loop state. -/
theorem sum_allocations_le_capital_witness :
    (((buildResult [] (fun _ => none) 100 "moderate" "balanced").recommendations.map
        (·.recommended_allocation)).sum ≤ (100 : ℚ)) ∧
    ((0 : ℚ) ≤ (allocLoop 100 1 [] 0).2 ∧ (allocLoop 100 1 [] 0).2 ≤ 100) := by
  constructor
  · have h : generate_recommendations [] ⟨some 100, none, none⟩ (fun _ => none)
        = .ok (buildResult [] (fun _ => none) 100 "moderate" "balanced") 200 := by
      rw [generate_recommendations]
      norm_num
    have := sum_allocations_le_capital.1 [] ⟨some 100, none, none⟩ (fun _ => none) _ _ h
    simpa using this
  · exact sum_allocations_le_capital.2 100 1 [] 0 (by norm_num)

/-- C2: capital strictly below 50 or strictly above 10000 yields exactly
the validation error `{'error': 'Capital must be between $50 and $10,000'}, 400`
for every catalog and snapshot (so no scoring or allocation can influence
the outcome, and no recommendation set is returned), while the boundary
values 50 and 10000 are accepted with a 200 result. -/
theorem capital_validation (catalog : List (String × StockInfo)) (body : Body)
    (quotes : String → Option Quote) :
    (body.total_capital.getD 1000 < 50 ∨ 10000 < body.total_capital.getD 1000 →
      generate_recommendations catalog body quotes
        = .err "Capital must be between $50 and $10,000" 400) ∧
    (body.total_capital = some 50 ∨ body.total_capital = some 10000 →
      ∃ rset, generate_recommendations catalog body quotes = .ok rset 200) := by
  constructor
  · intro h
    rw [generate_recommendations, if_pos h]
  · rintro (h | h) <;>
    · rw [generate_recommendations, h, if_neg (by norm_num [Option.getD])]
      exact ⟨_, rfl⟩

/-- Witness for C2: capital 20 is rejected, capital 10001 is rejected,
and the boundaries 50 and 10000 are accepted. -/
theorem capital_validation_witness :
    generate_recommendations [] ⟨some 20, none, none⟩ (fun _ => none)
      = .err "Capital must be between $50 and $10,000" 400 ∧
    generate_recommendations [] ⟨some 10001, none, none⟩ (fun _ => none)
      = .err "Capital must be between $50 and $10,000" 400 ∧
    (∃ rset, generate_recommendations [] ⟨some 50, none, none⟩ (fun _ => none)
      = .ok rset 200) ∧
    (∃ rset, generate_recommendations [] ⟨some 10000, none, none⟩ (fun _ => none)
      = .ok rset 200) :=
  ⟨(capital_validation [] ⟨some 20, none, none⟩ (fun _ => none)).1
      (by norm_num [Option.getD]),
   (capital_validation [] ⟨some 10001, none, none⟩ (fun _ => none)).1
      (by norm_num [Option.getD]),
   (capital_validation [] ⟨some 50, none, none⟩ (fun _ => none)).2 (Or.inl rfl),
   (capital_validation [] ⟨some 10000, none, none⟩ (fun _ => none)).2 (Or.inr rfl)⟩

/-- C3: the tier classifier is a pure total function with boundaries at
500/2000/5000, each boundary belonging to the lower tier. -/
theorem get_tier_spec (capital : ℚ) :
    (capital ≤ 500 → get_tier capital = (1, 1, 1/2)) ∧
    (500 < capital → capital ≤ 2000 → get_tier capital = (2, 3, 3/5)) ∧
    (2000 < capital → capital ≤ 5000 → get_tier capital = (3, 7, 7/10)) ∧
    (5000 < capital → get_tier capital = (4, 15, 4/5)) := by
  refine ⟨fun h => ?_, fun h1 h2 => ?_, fun h1 h2 => ?_, fun h => ?_⟩ <;>
    rw [get_tier]
  · rw [if_pos h]
  · rw [if_neg (by linarith), if_pos h2]
  · rw [if_neg (by linarith), if_neg (by linarith), if_pos h2]
  · rw [if_neg (by linarith), if_neg (by linarith), if_neg (by linarith)]

/-- Witness for C3 at the three boundary values and one interior point
of the top tier. -/
theorem get_tier_spec_witness :
    get_tier 500 = (1, 1, 1/2) ∧ get_tier 2000 = (2, 3, 3/5) ∧
    get_tier 5000 = (3, 7, 7/10) ∧ get_tier 10000 = (4, 15, 4/5) :=
  ⟨(get_tier_spec 500).1 (by norm_num),
   (get_tier_spec 2000).2.1 (by norm_num) (by norm_num),
   (get_tier_spec 5000).2.2.1 (by norm_num) (by norm_num),
   (get_tier_spec 10000).2.2.2 (by norm_num)⟩

/-- C9: the engine is a pure function of the request body and the quote
snapshot — identical inputs produce identical output. -/
theorem engine_deterministic (catalog : List (String × StockInfo)) (b1 b2 : Body)
    (q1 q2 : String → Option Quote) (hb : b1 = b2) (hq : ∀ s, q1 s = q2 s) :
    generate_recommendations catalog b1 q1 = generate_recommendations catalog b2 q2 := by
  subst hb
  rw [funext hq]

/-- Witness for C9 at a concrete input. -/
theorem engine_deterministic_witness :
    generate_recommendations ASX_STOCKS ⟨some 1000, some "low", some "growth"⟩
        (fun _ => none)
      = generate_recommendations ASX_STOCKS ⟨some 1000, some "low", some "growth"⟩
        (fun _ => none) :=
  engine_deterministic ASX_STOCKS _ _ _ _ rfl (fun _ => rfl)

/-- C10: a body without `total_capital` behaves exactly like one with
`total_capital = 1000` — it is accepted (status 200, a recommendation
set) rather than rejected, and 1000 classifies as tier 2. -/
theorem missing_capital_defaults_to_1000 (catalog : List (String × StockInfo))
    (quotes : String → Option Quote) (rt st : Option String) :
    generate_recommendations catalog ⟨none, rt, st⟩ quotes
      = generate_recommendations catalog ⟨some 1000, rt, st⟩ quotes ∧
    (∃ rset, generate_recommendations catalog ⟨none, rt, st⟩ quotes = .ok rset 200) ∧
    get_tier 1000 = (2, 3, 3/5) := by
  refine ⟨rfl, ?_, ?_⟩
  · rw [generate_recommendations, if_neg (by norm_num [Option.getD])]
    exact ⟨_, rfl⟩
  · rw [get_tier, if_neg (by norm_num), if_pos (by norm_num)]

/-- C4 (amended): for every scored candidate the stored adjusted return
is `round(base_return * strategy_multiplier * risk_multiplier, 1)` — the
product rounded to one decimal place — and the composite score is that
rounded adjusted return times the (unrounded) confidence; the multiplier
tables are as specified, defaulting to 1 on unrecognized strings. -/
theorem scoring_formula (sm rm mr : ℚ) (sym n0 sec : String) (q : Quote) (s : Scored)
    (h : scoreCandidate sm rm mr sym n0 sec q = some s) :
    (∃ price, q.price = some price ∧
      s.predicted_return = roundTo 1 (baseReturn price (q.previous_close.getD price)
        (q.fifty_two_week_high.getD price) * sm * rm) ∧
      s.score = s.predicted_return * confidenceOf price (q.fifty_two_week_high.getD price)
        (q.fifty_two_week_low.getD price)) ∧
    strat_mult "conservative" = 7/10 ∧ strat_mult "balanced" = 1 ∧
    strat_mult "growth" = 13/10 ∧ strat_mult "aggressive" = 3/2 ∧
    risk_mult_map "very_low" = 1/2 ∧ risk_mult_map "low" = 7/10 ∧
    risk_mult_map "moderate" = 1 ∧ risk_mult_map "high" = 13/10 ∧
    risk_mult_map "very_high" = 3/2 ∧
    (∀ t, t ≠ "conservative" → t ≠ "balanced" → t ≠ "growth" → t ≠ "aggressive" →
      strat_mult t = 1) ∧
    (∀ t, t ≠ "very_low" → t ≠ "low" → t ≠ "moderate" → t ≠ "high" → t ≠ "very_high" →
      risk_mult_map t = 1) := by
  obtain ⟨price, hp, -, -, -, -, hpred, -, hscore⟩ := scoreCandidate_eq_some h
  refine ⟨⟨price, hp, hpred, hscore⟩, ?_, ?_, ?_, ?_, ?_, ?_, ?_, ?_, ?_, ?_, ?_⟩
  · simp [strat_mult]
  · simp [strat_mult]
  · simp [strat_mult]
  · simp [strat_mult]
  · simp [risk_mult_map]
  · simp [risk_mult_map]
  · simp [risk_mult_map]
  · simp [risk_mult_map]
  · simp [risk_mult_map]
  · intro t h1 h2 h3 h4
    simp [strat_mult, h1, h2, h3, h4]
  · intro t h1 h2 h3 h4 h5
    simp [risk_mult_map, h1, h2, h3, h4, h5]

/-- Counterexample for C4 as stated: with the conservative strategy
(×0.7) and low risk tolerance (×0.7) on `qGood`, the engine stores
`adjusted_return = 2.9` while `base_return × sm × rm = 2.891` — the code
rounds the product to one decimal, so the two differ. -/
theorem scoring_formula_counterexample :
    (scoreCandidate (7/10) (7/10) (3/5) "CBA.AX" "Commonwealth Bank" "Financials"
        qGood).map (·.predicted_return) = some (29/10) ∧
    baseReturn 97 97 100 * (7/10) * (7/10) = 2891/1000 ∧
    (29/10 : ℚ) ≠ 2891/1000 := by
  refine ⟨?_, ?_, by norm_num⟩
  · rw [scoreCandidate]
    norm_num [qGood, riskScoreOf, posInRange, rangeWidth, dailyChange, confidenceOf,
      baseReturn, from52wHigh, roundTo, rhe]
  · norm_num [baseReturn, from52wHigh, dailyChange]

/-- Witness for C4 (amended) at `qGood` with neutral multipliers. -/
theorem scoring_formula_witness :
    s97.predicted_return = roundTo 1 (baseReturn 97 97 100 * 1 * 1) ∧
    s97.score = s97.predicted_return * confidenceOf 97 100 94 := by
  obtain ⟨⟨price, hp, h1, h2⟩, -⟩ := scoring_formula 1 1 (3/5) "CBA.AX"
    "Commonwealth Bank" "Financials" qGood s97 scoreCand_qGood
  have hpe : (97 : ℚ) = price := by
    have h97 : qGood.price = some 97 := rfl
    rw [h97] at hp
    injection hp
  rw [← hpe] at h1 h2
  exact ⟨h1, h2⟩

/-- C5: a candidate whose computed risk score exceeds the tier's risk
ceiling never appears in the returned recommendations, whatever the rest
of the snapshot looks like. -/
theorem risky_candidate_never_recommended
    (catalog : List (String × StockInfo)) (body : Body) (quotes : String → Option Quote)
    (rset : RecommendationSet) (st : ℕ) (sym : String) (info : StockInfo) (q : Quote)
    (price : ℚ)
    (hok : generate_recommendations catalog body quotes = .ok rset st)
    (_hmem : (sym, info) ∈ catalog)
    (hq : quotes sym = some q)
    (hprice : q.price = some price)
    (hrisk : (get_tier (body.total_capital.getD 1000)).2.2 <
      riskScoreOf price (q.previous_close.getD price) (q.fifty_two_week_high.getD price)
        (q.fifty_two_week_low.getD price)) :
    sym ∉ rset.recommendations.map (·.symbol) := by
  obtain ⟨-, -, -, hrs⟩ := generate_eq_ok hok
  subst hrs
  rw [buildResult_recommendations]
  intro hin
  rw [List.mem_map] at hin
  obtain ⟨a, ha, hsym⟩ := hin
  obtain ⟨p, hp, shares, -, haeq⟩ := allocLoop_mem_spec _ _ _ _ _ ha
  have hps : p.symbol = sym := by
    rw [haeq] at hsym
    exact hsym
  rw [pickList] at hp
  have hp2 := (sortByScore_perm _).mem_iff.mp (List.mem_of_mem_take hp)
  rw [mem_scoredList] at hp2
  obtain ⟨si, _, q', hq', hsc⟩ := hp2
  obtain ⟨price', hpr', -, hriskle, hsymeq, -⟩ := scoreCandidate_eq_some hsc
  have hsi : si.1 = sym := by rw [← hsymeq, hps]
  rw [hsi, hq] at hq'
  injection hq' with hq'
  subst hq'
  rw [hprice] at hpr'
  injection hpr' with hpr'
  subst hpr'
  exact absurd hriskle (not_le.mpr hrisk)

/-- Witness for C5: with `qRisky` (risk score 0.7) and capital 1000
(tier 2, ceiling 0.6), `CBA.AX` is absent from the output. -/
theorem risky_candidate_never_recommended_witness :
    "CBA.AX" ∉ (buildResult catalog1 quotesRisky 1000 "moderate"
      "balanced").recommendations.map (·.symbol) := by
  have hok : generate_recommendations catalog1 ⟨some 1000, none, none⟩ quotesRisky
      = .ok (buildResult catalog1 quotesRisky 1000 "moderate" "balanced") 200 := by
    rw [generate_recommendations, if_neg (by norm_num [Option.getD])]
    rfl
  have := risky_candidate_never_recommended catalog1 ⟨some 1000, none, none⟩
    quotesRisky _ 200 "CBA.AX" ⟨"Commonwealth Bank", "Financials"⟩ qRisky 100 hok
    (by simp [catalog1]) (by simp [quotesRisky]) rfl
    (by
      rw [get_tier, if_neg (by norm_num), if_pos (by norm_num)]
      norm_num [qRisky, riskScoreOf, posInRange, rangeWidth, dailyChange])
  simpa [Option.getD] using this

/-- C6: the selection sort is a stable descending sort by composite
score — the output is a permutation of the survivors, pairwise
descending, ties keep insertion order — and truncation to
`max_positions` bounds the number of recommendations; when fewer
survive, all of them are kept (no padding). -/
theorem selection_sort_spec :
    (∀ l : List Scored, (sortByScore l).Pairwise (fun a b => b.score ≤ a.score)) ∧
    (∀ l : List Scored, (sortByScore l).Perm l) ∧
    (∀ (a b : Scored) (l : List Scored), a.score = b.score →
      [a, b].Sublist l → [a, b].Sublist (sortByScore l)) ∧
    (∀ (l : List Scored) (n : ℕ), l.length ≤ n → (sortByScore l).take n = sortByScore l) ∧
    (∀ (catalog : List (String × StockInfo)) (body : Body)
        (quotes : String → Option Quote) (rset : RecommendationSet) (st : ℕ),
      generate_recommendations catalog body quotes = .ok rset st →
        rset.recommendations.length ≤ (get_tier (body.total_capital.getD 1000)).2.1) := by
  refine ⟨sortByScore_sorted, sortByScore_perm,
    fun a b l h hsub => sortByScore_stable h hsub,
    fun l n h => List.take_of_length_le (by rw [(sortByScore_perm l).length_eq]; exact h),
    fun catalog body quotes rset st hok => ?_⟩
  obtain ⟨-, -, -, hrs⟩ := generate_eq_ok hok
  subst hrs
  rw [buildResult_recommendations]
  refine le_trans (allocLoop_length_le _ _ _ _) ?_
  rw [pickList]
  refine le_trans (List.length_take_le _ _) (le_refl _)

/-- Witness for C6 at concrete lists and a concrete accepted request. -/
theorem selection_sort_spec_witness :
    (sortByScore []).Pairwise (fun a b => b.score ≤ a.score) ∧
    (sortByScore []).Perm [] ∧
    [s97, s97].Sublist (sortByScore [s97, s97]) ∧
    (sortByScore []).take 0 = sortByScore [] ∧
    (buildResult [] (fun _ => none) 100 "moderate" "balanced").recommendations.length
      ≤ (get_tier 100).2.1 := by
  refine ⟨selection_sort_spec.1 [], selection_sort_spec.2.1 [],
    selection_sort_spec.2.2.1 s97 s97 [s97, s97] rfl (List.Sublist.refl _),
    selection_sort_spec.2.2.2.1 [] 0 (by simp),
    ?_⟩
  have h : generate_recommendations [] ⟨some 100, none, none⟩ (fun _ => none)
      = .ok (buildResult [] (fun _ => none) 100 "moderate" "balanced") 200 := by
    rw [generate_recommendations]
    norm_num
  have := selection_sort_spec.2.2.2.2 [] ⟨some 100, none, none⟩ (fun _ => none) _ _ h
  simpa [Option.getD] using this

/-- C7: every accepted allocation has an integer share count of at least
one, and its cost (`recommended_allocation`) equals
`recommended_shares × current_price` exactly. -/
theorem shares_at_least_one_and_cost_exact
    (catalog : List (String × StockInfo)) (body : Body)
    (quotes : String → Option Quote) (rset : RecommendationSet) (st : ℕ)
    (hok : generate_recommendations catalog body quotes = .ok rset st) :
    ∀ a ∈ rset.recommendations, 1 ≤ a.recommended_shares ∧
      a.recommended_allocation = (a.recommended_shares : ℚ) * a.current_price := by
  obtain ⟨-, -, -, hrs⟩ := generate_eq_ok hok
  subst hrs
  rw [buildResult_recommendations]
  intro a ha
  obtain ⟨p, hp, shares, hs1, haeq⟩ := allocLoop_mem_spec _ _ _ _ _ ha
  rw [pickList] at hp
  have hp2 := (sortByScore_perm _).mem_iff.mp (List.mem_of_mem_take hp)
  rw [mem_scoredList] at hp2
  obtain ⟨si, -, q', -, hsc⟩ := hp2
  obtain ⟨price', -, -, -, -, hpprice, -⟩ := scoreCandidate_eq_some hsc
  obtain ⟨z, hz⟩ := roundTo_two_mul_cast price'
  rw [← hpprice] at hz
  have hcost : roundTo 2 ((shares : ℚ) * p.price) = (shares : ℚ) * p.price := by
    refine roundTo_two_eq_self _ (shares * z) ?_
    push_cast
    rw [mul_assoc, hz]
  subst haeq
  refine ⟨hs1, ?_⟩
  simp only [mkAlloc]
  exact hcost

/-- Witness for C7 at the concrete accepted request built from `qGood`:
10 shares at price 97 cost exactly 970. -/
theorem shares_at_least_one_and_cost_exact_witness :
    1 ≤ (mkAlloc s97 10 970).recommended_shares ∧
    (mkAlloc s97 10 970).recommended_allocation
      = ((mkAlloc s97 10 970).recommended_shares : ℚ) * (mkAlloc s97 10 970).current_price := by
  have hmem : mkAlloc s97 10 970
      ∈ (⟨970, 59/10, "moderate", [mkAlloc s97 10 970]⟩ : RecommendationSet).recommendations :=
    List.mem_singleton.mpr rfl
  exact shares_at_least_one_and_cost_exact catalog1 ⟨some 1000, none, none⟩ quotes1
    ⟨970, 59/10, "moderate", [mkAlloc s97 10 970]⟩ 200 generate_qGood
    (mkAlloc s97 10 970) hmem

/-- C8: degenerate selections are valid outcomes, not errors.  If every
candidate is filtered out, the engine returns zero recommendations with
`expected_return = 0` and `total_investment = 0`; the `or 1` divisor is
never zero; and in the spec's budget scenario (capital 1000, one
candidate priced 1200) the single pick's one-share cost 1200 fails the
budget check, giving the same empty-but-valid result. -/
theorem empty_selection_valid :
    (∀ (catalog : List (String × StockInfo)) (quotes : String → Option Quote) (body : Body),
      ¬(body.total_capital.getD 1000 < 50 ∨ 10000 < body.total_capital.getD 1000) →
      scoredList catalog quotes (strat_mult (body.investment_strategy.getD "balanced"))
        (risk_mult_map (body.risk_tolerance.getD "moderate"))
        (get_tier (body.total_capital.getD 1000)).2.2 = [] →
      generate_recommendations catalog body quotes
        = .ok ⟨0, 0, body.risk_tolerance.getD "moderate", []⟩ 200) ∧
    (∀ picks : List Scored, totalScore picks ≠ 0) ∧
    generate_recommendations catalog1 ⟨some 1000, none, none⟩ quotesExp
      = .ok ⟨0, 0, "moderate", []⟩ 200 := by
  refine ⟨?_, ?_, generate_qExp⟩
  · intro catalog quotes body hv hempty
    rw [generate_recommendations, if_neg hv]
    have hnil : sortByScore [] = [] := List.perm_nil.mp (sortByScore_perm [])
    have hpicks : pickList catalog quotes (body.total_capital.getD 1000)
        (body.risk_tolerance.getD "moderate")
        (body.investment_strategy.getD "balanced") = [] := by
      rw [pickList, hempty, hnil]
      simp
    rw [buildResult, hpicks]
    norm_num [allocLoop, roundTo, rhe]
  · intro picks
    rw [totalScore]
    split
    · norm_num
    · next h => exact h

/-- Witness for C8: an empty catalog with capital 100 yields the empty
valid result, and the degenerate divisor for an empty pick list is 1. -/
theorem empty_selection_valid_witness :
    generate_recommendations [] ⟨some 100, none, none⟩ (fun _ => none)
      = .ok ⟨0, 0, "moderate", []⟩ 200 ∧
    totalScore [] ≠ 0 := by
  constructor
  · have := empty_selection_valid.1 [] (fun _ => none) ⟨some 100, none, none⟩
      (by norm_num [Option.getD]) rfl
    simpa [Option.getD] using this
  · exact empty_selection_valid.2.1 []

end StockAgent
